import Mathlib

/-!
Verification of the `load_sync` form handler of the Amazon integration app
(`amazon_settings.js`).

The handler reads two optional date fields from the bound form, normalises
them with `formatToISO8601`, freezes the UI, issues a single, fixed
`frappe.call`, and renders one of three outcome notices.  We embed the
handler as a function from the form state and the outcome of the remote
call to either a raised exception or a trace of UI/transport events, and
embed the JavaScript `Date` behaviour that `formatToISO8601` relies on
(parsing of common date-time strings, `toISOString`, and the throwing
behaviour of `toISOString` on an invalid date).
-/

/-- JavaScript values as far as the handler inspects them: the `message`
field of a response and the error payload. -/
inductive JsValue where
  | undef
  | null
  | bool (b : Bool)
  | num (n : Int)
  | str (s : String)
  | arr (elems : List JsValue)
  | obj (fields : List (String × JsValue))

/-- JavaScript truthiness of a `JsValue` (`if (v)`).  Arrays and objects are
always truthy, `0`, the empty string, `null` and `undefined` are falsy. -/
def truthy : JsValue → Bool
  | .undef => false
  | .null => false
  | .bool b => b
  | .num n => n != 0
  | .str s => s != ""
  | .arr _ => true
  | .obj _ => true

/-- `Array.isArray`. -/
def isArray : JsValue → Bool
  | .arr _ => true
  | _ => false

/-- `.length` of an array value (0 for non-arrays; only used behind the
`isArray` guard). -/
def arrLength : JsValue → Nat
  | .arr elems => elems.length
  | _ => 0

/-- The exceptions our embedding can raise: `toISOString` throws a
`RangeError` on an invalid date or an out-of-range time value. -/
inductive JsError where
  | rangeError
deriving DecidableEq

/-- Arguments of a `frappe.msgprint` call: title, message and indicator
colour. -/
structure MsgprintArgs where
  title : String
  message : String
  indicator : String
deriving DecidableEq

/-- Observable events of one handler invocation, in program order. -/
inductive Event where
  | consoleLog (line : String)
  | consoleLogResponse (payload : JsValue)
  | consoleError (line : String) (payload : JsValue)
  | freeze (message : String)
  | unfreeze
  | remoteCall (method : String) (created_after : Option String)
      (created_before : Option String)
  | msgprint (args : MsgprintArgs)

/-- The two date fields read from `frm.doc`; `none` models an unset field. -/
structure FormDoc where
  from_date : Option String
  to_date : Option String

/-- Outcome of the remote call: resolution with the `message` field of the
response, or transport-level rejection with an error payload. -/
inductive RpcOutcome where
  | resolved (message : JsValue)
  | rejected (err : JsValue)

/- ## The JavaScript date model

Epoch milliseconds are modelled as unbounded integers; `/` and `%` on `Int`
are floor division and nonnegative remainder, matching the proleptic
Gregorian calendar arithmetic below.  Years are March-based internally
(`marchYearFromDays`), the standard trick that puts the leap day at the end
of the year. -/

/-- March-based year of an epoch day number (day 0 = 1970-01-01). -/
def marchYearFromDays (z : Int) : Int :=
  let e := z + 719468
  let era := e / 146097
  let doe := e % 146097
  let c0 := doe / 36524
  let cera := if c0 = 4 then 3 else c0
  let dcent := doe - 36524 * cera
  let q := dcent / 1461
  let dq := dcent - 1461 * q
  let y0 := dq / 365
  let yq := if y0 = 4 then 3 else y0
  400 * era + 100 * cera + 4 * q + yq

/-- Day of the March-based year (0 = March 1, …, 365 = February 29). -/
def doyFromDays (z : Int) : Int :=
  let e := z + 719468
  let doe := e % 146097
  let c0 := doe / 36524
  let cera := if c0 = 4 then 3 else c0
  let dcent := doe - 36524 * cera
  let q := dcent / 1461
  let dq := dcent - 1461 * q
  let y0 := dq / 365
  let yq := if y0 = 4 then 3 else y0
  dq - 365 * yq

/-- Epoch day number of a March-based year and day of year. -/
def daysFromYearDoy (y doy : Int) : Int :=
  let era := y / 400
  let yoe := y % 400
  146097 * era + 365 * yoe + yoe / 4 - yoe / 100 + doy - 719468

/-- Civil month (1–12) of a March-based day of year. -/
def monthFromDoy (doy : Int) : Int :=
  let mp := (5 * doy + 2) / 153
  if mp < 10 then mp + 3 else mp - 9

/-- Civil day of month (1–31) of a March-based day of year. -/
def dayFromDoy (doy : Int) : Int :=
  let mp := (5 * doy + 2) / 153
  doy - (153 * mp + 2) / 5 + 1

/-- March-based day of year of a civil month and day of month. -/
def doyFromMonthDay (m d : Int) : Int :=
  (153 * (if 2 < m then m - 3 else m + 9) + 2) / 5 + d - 1

/-- Civil date (year, month, day) of an epoch day number. -/
def civilFromDays (z : Int) : Int × Int × Int :=
  let y := marchYearFromDays z
  let doy := doyFromDays z
  let m := monthFromDoy doy
  let d := dayFromDoy doy
  (if m ≤ 2 then y + 1 else y, m, d)

/-- Epoch day number of a civil date. -/
def daysFromCivil (y m d : Int) : Int :=
  let yy := if m ≤ 2 then y - 1 else y
  daysFromYearDoy yy (doyFromMonthDay m d)

/-- Gregorian leap-year predicate. -/
def isLeapI (y : Int) : Bool := (y % 4 = 0 && y % 100 != 0) || y % 400 = 0

/-- Days in a civil month. -/
def daysInMonthI (y m : Int) : Int :=
  if m = 2 then (if isLeapI y then 29 else 28)
  else if m = 4 ∨ m = 6 ∨ m = 9 ∨ m = 11 then 30 else 31

/- ## Digits and rendering -/

/-- The decimal digit character of a small integer. -/
def digitChar : Int → Char
  | 0 => '0'
  | 1 => '1'
  | 2 => '2'
  | 3 => '3'
  | 4 => '4'
  | 5 => '5'
  | 6 => '6'
  | 7 => '7'
  | 8 => '8'
  | 9 => '9'
  | _ => '?'

/-- The value of a decimal digit character (`none` on non-digits). -/
def digitVal (c : Char) : Option Int :=
  if '0' ≤ c ∧ c ≤ '9' then some ((c.toNat : Int) - 48) else none

/-- Two-digit zero-padded decimal rendering. -/
def pad2 (n : Int) : List Char := [digitChar (n / 10 % 10), digitChar (n % 10)]

/-- Three-digit zero-padded decimal rendering. -/
def pad3 (n : Int) : List Char :=
  [digitChar (n / 100 % 10), digitChar (n / 10 % 10), digitChar (n % 10)]

/-- Four-digit zero-padded decimal rendering. -/
def pad4 (n : Int) : List Char :=
  [digitChar (n / 1000 % 10), digitChar (n / 100 % 10), digitChar (n / 10 % 10),
   digitChar (n % 10)]

/-- Six-digit zero-padded decimal rendering (expanded-year format). -/
def pad6 (n : Int) : List Char :=
  [digitChar (n / 100000 % 10), digitChar (n / 10000 % 10), digitChar (n / 1000 % 10),
   digitChar (n / 100 % 10), digitChar (n / 10 % 10), digitChar (n % 10)]

/-- The year field of `toISOString`: four digits for 0–9999, the expanded
`±YYYYYY` form otherwise (ECMA-262 Date Time String Format). -/
def yearChars (y : Int) : List Char :=
  if 0 ≤ y ∧ y ≤ 9999 then pad4 y
  else if y < 0 then '-' :: pad6 (-y)
  else '+' :: pad6 y

/-- The characters of `toISOString` up to (not including) the decimal point:
`YYYY-MM-DDTHH:mm:ss` of an epoch-second value, in UTC. -/
def isoSecChars (tsec : Int) : List Char :=
  let days := tsec / 86400
  let sod := tsec % 86400
  let c := civilFromDays days
  yearChars c.1 ++ '-' :: pad2 c.2.1 ++ '-' :: pad2 c.2.2 ++
    'T' :: pad2 (sod / 3600) ++ ':' :: pad2 (sod % 3600 / 60) ++ ':' :: pad2 (sod % 60)

/-- The second-precision UTC rendering `YYYY-MM-DDTHH:mm:ssZ` of an
epoch-second value (the value `formatToISO8601` produces). -/
def isoSecString (tsec : Int) : String :=
  String.mk (isoSecChars tsec ++ ['Z'])

/-- `Date.prototype.toISOString` on an epoch-millisecond value: throws a
`RangeError` beyond ±8.64e15 ms, otherwise renders
`YYYY-MM-DDTHH:mm:ss.sssZ` in UTC. -/
def toISOStringE (t : Int) : Except JsError String :=
  if t < -8640000000000000 ∨ 8640000000000000 < t then .error .rangeError
  else .ok (String.mk (isoSecChars (t / 1000) ++ '.' :: pad3 (t % 1000) ++ ['Z']))

/-- JavaScript `s.split('.')[0]`: the prefix of `s` before the first dot
(`split` always returns a nonempty array, so the index is safe). -/
def jsSplitDotHead (s : String) : String :=
  String.mk (s.toList.takeWhile (fun c => c != '.'))

/- ## The JavaScript date parser

`new Date(string)` is modelled for the date-time shapes the form produces:
`YYYY-MM-DD` (date only, interpreted as UTC midnight per ECMA-262),
`YYYY-MM-DD HH:mm:ss` and `YYYY-MM-DDTHH:mm:ss` with optional `.fff`
fraction and optional trailing `Z`.  Forms without `Z` are interpreted as
local time; `tz` is the `getTimezoneOffset` value in minutes (UTC − local).
Any other string yields an invalid date (`none`). -/

/-- Combined value of two decimal digit characters. -/
def parse2 (a b : Char) : Option Int :=
  match digitVal a, digitVal b with
  | some x, some y => some (10 * x + y)
  | _, _ => none

/-- Combined value of three decimal digit characters. -/
def parse3 (a b c : Char) : Option Int :=
  match digitVal a, digitVal b, digitVal c with
  | some x, some y, some z => some (100 * x + 10 * y + z)
  | _, _, _ => none

/-- Combined value of four decimal digit characters. -/
def parse4 (a b c d : Char) : Option Int :=
  match digitVal a, digitVal b, digitVal c, digitVal d with
  | some x, some y, some z, some w => some (1000 * x + 100 * y + 10 * z + w)
  | _, _, _, _ => none

/-- Epoch milliseconds of a civil UTC date-time. -/
def epochMillisOfCivil (y mo d hh mi ss ms : Int) : Int :=
  (daysFromCivil y mo d * 86400 + hh * 3600 + mi * 60 + ss) * 1000 + ms

/-- Parses the time-of-day tail `HH:mm:ss[.fff][Z]`; returns
`(hh, mi, ss, ms, utc)`. -/
def parseTimeTail : List Char → Option (Int × Int × Int × Int × Bool)
  | [h1, h2, ':', m1, m2, ':', s1, s2] =>
    (match parse2 h1 h2, parse2 m1 m2, parse2 s1 s2 with
     | some hh, some mi, some ss => some (hh, mi, ss, 0, false)
     | _, _, _ => none)
  | [h1, h2, ':', m1, m2, ':', s1, s2, 'Z'] =>
    (match parse2 h1 h2, parse2 m1 m2, parse2 s1 s2 with
     | some hh, some mi, some ss => some (hh, mi, ss, 0, true)
     | _, _, _ => none)
  | [h1, h2, ':', m1, m2, ':', s1, s2, '.', f1, f2, f3] =>
    (match parse2 h1 h2, parse2 m1 m2, parse2 s1 s2, parse3 f1 f2 f3 with
     | some hh, some mi, some ss, some ms => some (hh, mi, ss, ms, false)
     | _, _, _, _ => none)
  | [h1, h2, ':', m1, m2, ':', s1, s2, '.', f1, f2, f3, 'Z'] =>
    (match parse2 h1 h2, parse2 m1 m2, parse2 s1 s2, parse3 f1 f2 f3 with
     | some hh, some mi, some ss, some ms => some (hh, mi, ss, ms, true)
     | _, _, _, _ => none)
  | _ => none

/-- `new Date(string)` on a character list: epoch milliseconds, or `none`
for an invalid date. -/
def parseJsDateChars (tz : Int) : List Char → Option Int
  | [y1, y2, y3, y4, '-', a1, a2, '-', b1, b2] =>
    (match parse4 y1 y2 y3 y4, parse2 a1 a2, parse2 b1 b2 with
     | some y, some mo, some d =>
       if 1 ≤ mo ∧ mo ≤ 12 ∧ 1 ≤ d ∧ d ≤ daysInMonthI y mo then
         some (epochMillisOfCivil y mo d 0 0 0 0)
       else none
     | _, _, _ => none)
  | y1 :: y2 :: y3 :: y4 :: '-' :: a1 :: a2 :: '-' :: b1 :: b2 :: sep :: rest =>
    if sep = ' ' ∨ sep = 'T' then
      match parse4 y1 y2 y3 y4, parse2 a1 a2, parse2 b1 b2, parseTimeTail rest with
      | some y, some mo, some d, some (hh, mi, ss, ms, utc) =>
        if 1 ≤ mo ∧ mo ≤ 12 ∧ 1 ≤ d ∧ d ≤ daysInMonthI y mo ∧
            hh ≤ 23 ∧ mi ≤ 59 ∧ ss ≤ 59 then
          some (epochMillisOfCivil y mo d hh mi ss ms + if utc then 0 else tz * 60000)
        else none
      | _, _, _, _ => none
    else none
  | _ => none

/-- `new Date(string)` on a string. -/
def parseJsDate (tz : Int) (s : String) : Option Int := parseJsDateChars tz s.toList

/- ## The handler -/

/-- `formatToISO8601` from `amazon_settings.js`: a falsy input (unset field
or empty string) yields `null` without consulting the date parser;
otherwise the input is parsed by `new Date` and rendered by
`date.toISOString().split('.')[0] + 'Z'`.  An unparseable non-empty input
produces an invalid date, on which `toISOString` throws.  The date parser
is passed as a parameter so that parser-independence of the falsy path is
expressible. -/
def formatToISO8601 (parse : String → Option Int) : Option String → Except JsError (Option String)
  | none => .ok none
  | some s =>
    if s = "" then .ok none
    else
      match parse s with
      | none => .error .rangeError
      | some t =>
        match toISOStringE t with
        | .error e => .error e
        | .ok iso => .ok (some (jsSplitDotHead iso ++ "Z"))

/-- Interpolation of a nullable string into a template literal: JavaScript
renders `null` as the string `null`. -/
def jsTemplate : Option String → String
  | none => "null"
  | some s => s

/-- The fixed fully-qualified method name of the remote call. -/
def syncMethod : String :=
  "amazon_integration.amazon_integration.py.amazon.sync_amazon_vendor_orders"

/-- The success notice (`indicator: green`). -/
def successNotice : MsgprintArgs :=
  ⟨"Success", "Amazon orders synced successfully.", "green"⟩

/-- The informational notice (`indicator: yellow`). -/
def infoNotice : MsgprintArgs :=
  ⟨"Information", "No new orders were found to sync.", "yellow"⟩

/-- The error notice (`indicator: red`). -/
def errorNotice : MsgprintArgs :=
  ⟨"Error",
   "Failed to sync orders. Please try again or contact support if the issue persists.",
   "red"⟩

/-- The `callback` handler of the `frappe.call`: unfreeze, then branch on
`res.message && Array.isArray(res.message) && res.message.length > 0`. -/
def syncCallback (msg : JsValue) : List Event :=
  Event.unfreeze ::
    (if truthy msg && isArray msg && decide (0 < arrLength msg) then
      [Event.msgprint successNotice, Event.consoleLogResponse msg]
    else
      [Event.msgprint infoNotice])

/-- The `error` handler of the `frappe.call`: unfreeze, log, red notice. -/
def syncError (err : JsValue) : List Event :=
  [Event.unfreeze, Event.consoleError "Error syncing orders:" err,
   Event.msgprint errorNotice]

/-- Dispatch of the remote outcome to the corresponding handler branch. -/
def outcomeEvents : RpcOutcome → List Event
  | .resolved msg => syncCallback msg
  | .rejected err => syncError err

/-- The `load_sync` handler of `amazon_settings.js` as a trace semantics:
normalise the two dates (which may throw), log them, freeze, issue the one
remote call, and run the resolution or rejection branch. -/
def load_sync (parse : String → Option Int) (frmDoc : FormDoc) (outcome : RpcOutcome) :
    Except JsError (List Event) :=
  match formatToISO8601 parse frmDoc.from_date with
  | .error e => .error e
  | .ok created_after =>
    match formatToISO8601 parse frmDoc.to_date with
    | .error e => .error e
    | .ok created_before =>
      .ok ([Event.consoleLog ("From Date (ISO): " ++ jsTemplate created_after),
            Event.consoleLog ("To Date (ISO): " ++ jsTemplate created_before),
            Event.freeze "Fetching orders from Amazon...",
            Event.remoteCall syncMethod created_after created_before] ++
        outcomeEvents outcome)

/- ## Trace observers -/

/-- The notices rendered in a trace, in order. -/
def noticesOf (tr : List Event) : List MsgprintArgs :=
  tr.filterMap fun e =>
    match e with
    | .msgprint m => some m
    | _ => none

/-- The remote calls issued in a trace, in order. -/
def callsOf (tr : List Event) : List (String × Option String × Option String) :=
  tr.filterMap fun e =>
    match e with
    | .remoteCall m a b => some (m, a, b)
    | _ => none

/-- Number of busy-overlay clears in a trace. -/
def unfreezeCount (tr : List Event) : Nat :=
  (tr.filter fun e =>
    match e with
    | .unfreeze => true
    | _ => false).length

/-- `true` iff no remote call occurs before the first overlay display. -/
def freezeBeforeCall : List Event → Bool
  | [] => true
  | .remoteCall _ _ _ :: _ => false
  | .freeze _ :: _ => true
  | _ :: rest => freezeBeforeCall rest

/-- `true` iff no notice is shown before the first overlay clear. -/
def unfreezeBeforeNotice : List Event → Bool
  | [] => true
  | .msgprint _ :: _ => false
  | .unfreeze :: _ => true
  | _ :: rest => unfreezeBeforeNotice rest

/-- Checker for the pattern `YYYY-MM-DDTHH:mm:ssZ` on a character list (all
positions digits or the fixed separators). -/
def isBasicIsoZChars : List Char → Bool
  | [a, b, c, d, '-', e, f, '-', g, h, 'T', i, j, ':', k, l, ':', m, n, 'Z'] =>
    (digitVal a).isSome && (digitVal b).isSome && (digitVal c).isSome &&
    (digitVal d).isSome && (digitVal e).isSome && (digitVal f).isSome &&
    (digitVal g).isSome && (digitVal h).isSome && (digitVal i).isSome &&
    (digitVal j).isSome && (digitVal k).isSome && (digitVal l).isSome &&
    (digitVal m).isSome && (digitVal n).isSome
  | _ => false

/-- Checker for the pattern `YYYY-MM-DDTHH:mm:ssZ` on a string. -/
def isBasicIsoZ (s : String) : Bool := isBasicIsoZChars s.toList

/- ## Trace shape lemmas -/

/-- The trace of a successful invocation: preamble (logs, freeze, call)
followed by the outcome branch. -/
theorem load_sync_ok_inv (parse : String → Option Int) (doc : FormDoc) (oc : RpcOutcome)
    (tr : List Event) (h : load_sync parse doc oc = .ok tr) :
    ∃ a b, formatToISO8601 parse doc.from_date = .ok a ∧
      formatToISO8601 parse doc.to_date = .ok b ∧
      tr = [Event.consoleLog ("From Date (ISO): " ++ jsTemplate a),
            Event.consoleLog ("To Date (ISO): " ++ jsTemplate b),
            Event.freeze "Fetching orders from Amazon...",
            Event.remoteCall syncMethod a b] ++ outcomeEvents oc := by
  unfold load_sync at h
  cases hfa : formatToISO8601 parse doc.from_date with
  | error e => rw [hfa] at h; cases h
  | ok a =>
    rw [hfa] at h
    cases hfb : formatToISO8601 parse doc.to_date with
    | error e => rw [hfb] at h; cases h
    | ok b =>
      rw [hfb] at h
      cases h
      exact ⟨a, b, rfl, rfl, rfl⟩

/-- Conversely, once both normalisations succeed the handler cannot throw. -/
theorem load_sync_ok_of_formats (parse : String → Option Int) (doc : FormDoc) (oc : RpcOutcome)
    (a b : Option String)
    (ha : formatToISO8601 parse doc.from_date = .ok a)
    (hb : formatToISO8601 parse doc.to_date = .ok b) :
    load_sync parse doc oc =
      .ok ([Event.consoleLog ("From Date (ISO): " ++ jsTemplate a),
            Event.consoleLog ("To Date (ISO): " ++ jsTemplate b),
            Event.freeze "Fetching orders from Amazon...",
            Event.remoteCall syncMethod a b] ++ outcomeEvents oc) := by
  unfold load_sync
  rw [ha, hb]

/-- C1: for every resolved response, a `null`/absent or empty-array
`message` renders exactly the informational notice, and a nonempty array
`message` renders exactly the success notice. -/
theorem resolved_notice_classification (parse : String → Option Int) (doc : FormDoc)
    (msg : JsValue) (tr : List Event)
    (h : load_sync parse doc (.resolved msg) = .ok tr) :
    ((msg = JsValue.null ∨ msg = JsValue.undef ∨ msg = JsValue.arr []) →
      noticesOf tr = [infoNotice]) ∧
    (∀ x xs, msg = JsValue.arr (x :: xs) → noticesOf tr = [successNotice]) := by
  obtain ⟨a, b, ha, hb, htr⟩ := load_sync_ok_inv parse doc (.resolved msg) tr h
  subst htr
  constructor
  · rintro (rfl | rfl | rfl) <;>
      simp [outcomeEvents, noticesOf, syncCallback, truthy, isArray, arrLength]
  · rintro x xs rfl
    simp [outcomeEvents, noticesOf, syncCallback, truthy, isArray, arrLength]

theorem resolved_notice_classification_witness :
    noticesOf ([Event.consoleLog ("From Date (ISO): " ++ jsTemplate none),
      Event.consoleLog ("To Date (ISO): " ++ jsTemplate none),
      Event.freeze "Fetching orders from Amazon...",
      Event.remoteCall syncMethod none none] ++ syncCallback JsValue.null) = [infoNotice] :=
  (resolved_notice_classification (fun _ => none) ⟨none, none⟩ JsValue.null _ rfl).1
    (Or.inl rfl)

/-- C2: on every non-throwing invocation the overlay is displayed, no
remote call precedes it, the overlay is cleared on the taken exit path, no
notice precedes the clear, and the path ends in a notice. -/
theorem busy_overlay_discipline (parse : String → Option Int) (doc : FormDoc)
    (oc : RpcOutcome) (tr : List Event) (h : load_sync parse doc oc = .ok tr) :
    Event.freeze "Fetching orders from Amazon..." ∈ tr ∧
    freezeBeforeCall tr = true ∧
    Event.unfreeze ∈ tr ∧
    unfreezeBeforeNotice tr = true ∧
    noticesOf tr ≠ [] := by
  obtain ⟨a, b, ha, hb, htr⟩ := load_sync_ok_inv parse doc oc tr h
  subst htr
  cases oc with
  | resolved msg =>
    simp only [outcomeEvents]
    unfold syncCallback
    split <;>
      simp [noticesOf, freezeBeforeCall, unfreezeBeforeNotice]
  | rejected err =>
    simp [outcomeEvents, syncError, noticesOf, freezeBeforeCall, unfreezeBeforeNotice]

theorem busy_overlay_discipline_witness :
    Event.freeze "Fetching orders from Amazon..." ∈
      ([Event.consoleLog ("From Date (ISO): " ++ jsTemplate none),
        Event.consoleLog ("To Date (ISO): " ++ jsTemplate none),
        Event.freeze "Fetching orders from Amazon...",
        Event.remoteCall syncMethod none none] ++ syncError JsValue.null) ∧
    freezeBeforeCall
      ([Event.consoleLog ("From Date (ISO): " ++ jsTemplate none),
        Event.consoleLog ("To Date (ISO): " ++ jsTemplate none),
        Event.freeze "Fetching orders from Amazon...",
        Event.remoteCall syncMethod none none] ++ syncError JsValue.null) = true ∧
    Event.unfreeze ∈
      ([Event.consoleLog ("From Date (ISO): " ++ jsTemplate none),
        Event.consoleLog ("To Date (ISO): " ++ jsTemplate none),
        Event.freeze "Fetching orders from Amazon...",
        Event.remoteCall syncMethod none none] ++ syncError JsValue.null) ∧
    unfreezeBeforeNotice
      ([Event.consoleLog ("From Date (ISO): " ++ jsTemplate none),
        Event.consoleLog ("To Date (ISO): " ++ jsTemplate none),
        Event.freeze "Fetching orders from Amazon...",
        Event.remoteCall syncMethod none none] ++ syncError JsValue.null) = true ∧
    noticesOf
      ([Event.consoleLog ("From Date (ISO): " ++ jsTemplate none),
        Event.consoleLog ("To Date (ISO): " ++ jsTemplate none),
        Event.freeze "Fetching orders from Amazon...",
        Event.remoteCall syncMethod none none] ++ syncError JsValue.null) ≠ [] :=
  busy_overlay_discipline (fun _ => none) ⟨none, none⟩ (.rejected JsValue.null) _ rfl

/-- C4: a rejected remote call renders exactly the red error notice, logs
the failure payload, clears the overlay exactly once, and the clear
precedes the notice. -/
theorem rejected_call_error_notice (parse : String → Option Int) (doc : FormDoc)
    (err : JsValue) (tr : List Event)
    (h : load_sync parse doc (.rejected err) = .ok tr) :
    noticesOf tr = [errorNotice] ∧
    Event.consoleError "Error syncing orders:" err ∈ tr ∧
    unfreezeCount tr = 1 ∧
    unfreezeBeforeNotice tr = true := by
  obtain ⟨a, b, ha, hb, htr⟩ := load_sync_ok_inv parse doc (.rejected err) tr h
  subst htr
  simp [outcomeEvents, syncError, noticesOf, unfreezeCount, unfreezeBeforeNotice]

theorem rejected_call_error_notice_witness :
    noticesOf ([Event.consoleLog ("From Date (ISO): " ++ jsTemplate none),
      Event.consoleLog ("To Date (ISO): " ++ jsTemplate none),
      Event.freeze "Fetching orders from Amazon...",
      Event.remoteCall syncMethod none none] ++ syncError (JsValue.str "boom")) =
        [errorNotice] ∧
    Event.consoleError "Error syncing orders:" (JsValue.str "boom") ∈
      ([Event.consoleLog ("From Date (ISO): " ++ jsTemplate none),
        Event.consoleLog ("To Date (ISO): " ++ jsTemplate none),
        Event.freeze "Fetching orders from Amazon...",
        Event.remoteCall syncMethod none none] ++ syncError (JsValue.str "boom")) ∧
    unfreezeCount ([Event.consoleLog ("From Date (ISO): " ++ jsTemplate none),
      Event.consoleLog ("To Date (ISO): " ++ jsTemplate none),
      Event.freeze "Fetching orders from Amazon...",
      Event.remoteCall syncMethod none none] ++ syncError (JsValue.str "boom")) = 1 ∧
    unfreezeBeforeNotice ([Event.consoleLog ("From Date (ISO): " ++ jsTemplate none),
      Event.consoleLog ("To Date (ISO): " ++ jsTemplate none),
      Event.freeze "Fetching orders from Amazon...",
      Event.remoteCall syncMethod none none] ++ syncError (JsValue.str "boom")) = true :=
  rejected_call_error_notice (fun _ => none) ⟨none, none⟩ (JsValue.str "boom") _ rfl

/-- C5: a falsy date field normalises to `null` under every parser (the
parser is not consulted), and that `null` reaches the remote call as the
`created_after` argument unchanged. -/
theorem absent_date_null_passthrough (parse : String → Option Int) (doc : FormDoc)
    (oc : RpcOutcome) (tr : List Event) (b : Option String)
    (hempty : doc.from_date = none ∨ doc.from_date = some "")
    (hb : formatToISO8601 parse doc.to_date = .ok b)
    (h : load_sync parse doc oc = .ok tr) :
    formatToISO8601 parse doc.from_date = .ok none ∧
    callsOf tr = [(syncMethod, none, b)] := by
  have hfa : formatToISO8601 parse doc.from_date = .ok none := by
    rcases hempty with he | he <;> rw [he] <;> rfl
  refine ⟨hfa, ?_⟩
  obtain ⟨a, b', ha', hb', htr⟩ := load_sync_ok_inv parse doc oc tr h
  rw [hfa] at ha'
  rw [hb] at hb'
  cases ha'
  cases hb'
  subst htr
  cases oc with
  | resolved msg =>
    simp only [outcomeEvents]
    unfold syncCallback
    split <;> simp [callsOf]
  | rejected err =>
    simp [outcomeEvents, callsOf, syncError]

theorem absent_date_null_passthrough_witness :
    formatToISO8601 (fun _ => none) (FormDoc.mk none none).from_date = .ok none ∧
    callsOf ([Event.consoleLog ("From Date (ISO): " ++ jsTemplate none),
      Event.consoleLog ("To Date (ISO): " ++ jsTemplate none),
      Event.freeze "Fetching orders from Amazon...",
      Event.remoteCall syncMethod none none] ++ syncCallback JsValue.null) =
        [(syncMethod, none, none)] :=
  absent_date_null_passthrough (fun _ => none) ⟨none, none⟩ (.resolved JsValue.null) _
    none (Or.inl rfl) rfl rfl

/-- C8: every non-throwing invocation issues exactly one remote call, to
the fixed fully-qualified method, carrying exactly the two normalised
values, on every outcome (in particular no retry on rejection). -/
theorem single_fixed_remote_call (parse : String → Option Int) (doc : FormDoc)
    (oc : RpcOutcome) (a b : Option String) (tr : List Event)
    (ha : formatToISO8601 parse doc.from_date = .ok a)
    (hb : formatToISO8601 parse doc.to_date = .ok b)
    (h : load_sync parse doc oc = .ok tr) :
    callsOf tr = [(syncMethod, a, b)] := by
  obtain ⟨a', b', ha', hb', htr⟩ := load_sync_ok_inv parse doc oc tr h
  rw [ha] at ha'
  rw [hb] at hb'
  cases ha'
  cases hb'
  subst htr
  cases oc with
  | resolved msg =>
    simp only [outcomeEvents]
    unfold syncCallback
    split <;> simp [callsOf]
  | rejected err =>
    simp [outcomeEvents, callsOf, syncError]

theorem single_fixed_remote_call_witness :
    callsOf ([Event.consoleLog ("From Date (ISO): " ++ jsTemplate none),
      Event.consoleLog ("To Date (ISO): " ++ jsTemplate none),
      Event.freeze "Fetching orders from Amazon...",
      Event.remoteCall syncMethod none none] ++ syncError JsValue.null) =
        [(syncMethod, none, none)] :=
  single_fixed_remote_call (fun _ => none) ⟨none, none⟩ (.rejected JsValue.null)
    none none _ rfl rfl rfl

/-- C10: a resolved `message` that is truthy but not an array (for example
a nonempty string or a plain object) renders the informational notice, not
the success notice. -/
theorem truthy_nonarray_info_notice (parse : String → Option Int) (doc : FormDoc)
    (msg : JsValue) (tr : List Event)
    (htruthy : truthy msg = true) (hnarr : isArray msg = false)
    (h : load_sync parse doc (.resolved msg) = .ok tr) :
    noticesOf tr = [infoNotice] := by
  obtain ⟨a, b, ha, hb, htr⟩ := load_sync_ok_inv parse doc (.resolved msg) tr h
  subst htr
  simp only [outcomeEvents]
  unfold syncCallback
  rw [if_neg (by simp [hnarr])]
  simp [noticesOf]

theorem truthy_nonarray_info_notice_witness :
    noticesOf ([Event.consoleLog ("From Date (ISO): " ++ jsTemplate none),
      Event.consoleLog ("To Date (ISO): " ++ jsTemplate none),
      Event.freeze "Fetching orders from Amazon...",
      Event.remoteCall syncMethod none none] ++ syncCallback (JsValue.str "ok")) =
        [infoNotice] :=
  truthy_nonarray_info_notice (fun _ => none) ⟨none, none⟩ (JsValue.str "ok") _
    rfl rfl rfl

/-- C3 (counterexample): with a present but unparseable `from_date`,
`new Date` yields an invalid date, `toISOString` throws, and the exception
propagates out of `load_sync` before any overlay or notice. -/
theorem handler_exception_on_unparseable_date :
    load_sync (parseJsDate 0) ⟨some "not-a-date", none⟩ (.resolved JsValue.null) =
      .error .rangeError := rfl

/-- C3 (amended): whenever both date fields normalise without throwing
(each is absent, empty, or parseable), no exception propagates out of the
handler and every path — success, empty result, or transport error — ends
in a rendered notice. -/
theorem handler_no_exception_when_normalisable (parse : String → Option Int) (doc : FormDoc)
    (oc : RpcOutcome) (a b : Option String)
    (ha : formatToISO8601 parse doc.from_date = .ok a)
    (hb : formatToISO8601 parse doc.to_date = .ok b) :
    ∃ tr, load_sync parse doc oc = .ok tr ∧ noticesOf tr ≠ [] := by
  refine ⟨_, load_sync_ok_of_formats parse doc oc a b ha hb, ?_⟩
  cases oc with
  | resolved msg =>
    simp only [outcomeEvents]
    unfold syncCallback
    split <;> simp [noticesOf]
  | rejected err =>
    simp [outcomeEvents, syncError, noticesOf]

theorem handler_no_exception_when_normalisable_witness :
    ∃ tr, load_sync (fun _ => none) ⟨none, none⟩ (.resolved JsValue.null) = .ok tr ∧
      noticesOf tr ≠ [] :=
  handler_no_exception_when_normalisable (fun _ => none) ⟨none, none⟩
    (.resolved JsValue.null) none none rfl rfl

/-- C9: with implementation locale UTC (`getTimezoneOffset() = 0`),
`from_date = "2024-01-15 10:30:00"` and `to_date` unset, the one remote
call receives `created_after = "2024-01-15T10:30:00Z"` and
`created_before = null`, whatever the outcome of the call. -/
theorem scenario_from_date_only (oc : RpcOutcome) :
    (load_sync (parseJsDate 0) ⟨some "2024-01-15 10:30:00", none⟩ oc).map callsOf =
      .ok [(syncMethod, some "2024-01-15T10:30:00Z", none)] := by
  rw [load_sync_ok_of_formats (parseJsDate 0) ⟨some "2024-01-15 10:30:00", none⟩ oc
    (some "2024-01-15T10:30:00Z") none (by rfl) (by rfl)]
  cases oc with
  | resolved msg =>
    simp only [Except.map, outcomeEvents]
    unfold syncCallback
    split <;> simp [callsOf]
  | rejected err =>
    simp [Except.map, outcomeEvents, callsOf, syncError]
theorem days_split (z : Int) :
    0 ≤ doyFromDays z ∧ doyFromDays z ≤ 365 ∧
    daysFromYearDoy (marchYearFromDays z) (doyFromDays z) = z ∧
    (doyFromDays z = 365 →
      (marchYearFromDays z + 1) % 4 = 0 ∧
      ((marchYearFromDays z + 1) % 100 ≠ 0 ∨ (marchYearFromDays z + 1) % 400 = 0)) := by
  unfold marchYearFromDays doyFromDays daysFromYearDoy
  simp only
  set e := z + 719468 with he
  set era := e / 146097 with hera
  set doe := e % 146097 with hdoe
  have h1 : 0 ≤ doe ∧ doe ≤ 146096 ∧ e = 146097 * era + doe := by omega
  clear_value era doe
  clear hera hdoe
  set c0 := doe / 36524 with hc0
  have h2 : 0 ≤ c0 ∧ c0 ≤ 4 ∧ 36524 * c0 ≤ doe ∧ doe < 36524 * c0 + 36524 := by omega
  clear_value c0
  clear hc0
  by_cases hc4 : c0 = 4
  · -- last day of the 400-year era: doe = 146096
    rw [if_pos hc4]
    have hd : doe = 146096 := by omega
    subst hd
    norm_num
    omega
  · rw [if_neg hc4]
    set dcent := doe - 36524 * c0 with hdc
    have h3 : dcent = doe - 36524 * c0 ∧ 0 ≤ dcent ∧ dcent ≤ 36523 := by omega
    set q := dcent / 1461 with hq
    have h4 : 0 ≤ q ∧ q ≤ 24 ∧ 1461 * q ≤ dcent ∧ dcent < 1461 * q + 1461 ∧
        (q = 24 → dcent - 1461 * q ≤ 1459) := by omega
    clear_value dcent q
    clear hdc hq
    set dq := dcent - 1461 * q with hdq
    have h5 : dq = dcent - 1461 * q ∧ 0 ≤ dq ∧ dq ≤ 1460 ∧ (q = 24 → dq ≤ 1459) := by omega
    clear_value dq
    clear hdq
    set y0 := dq / 365 with hy0
    have h6 : 0 ≤ y0 ∧ y0 ≤ 4 ∧ 365 * y0 ≤ dq ∧ dq < 365 * y0 + 365 ∧ (y0 = 4 → dq = 1460) := by
      omega
    clear_value y0
    clear hy0
    by_cases hy4 : y0 = 4
    · rw [if_pos hy4]
      have ha : (400 * era + 100 * c0 + 4 * q + 3) / 400 = era := by omega
      have hb : (400 * era + 100 * c0 + 4 * q + 3) % 400 = 100 * c0 + 4 * q + 3 := by omega
      rw [ha, hb]
      have hc : (100 * c0 + 4 * q + 3) / 4 = 25 * c0 + q := by omega
      have hd2 : (100 * c0 + 4 * q + 3) / 100 = c0 := by omega
      rw [hc, hd2]
      refine ⟨by omega, by omega, by omega, ?_⟩
      intro _
      constructor
      · omega
      · left
        omega
    · rw [if_neg hy4]
      have ha : (400 * era + 100 * c0 + 4 * q + y0) / 400 = era := by omega
      have hb : (400 * era + 100 * c0 + 4 * q + y0) % 400 = 100 * c0 + 4 * q + y0 := by omega
      rw [ha, hb]
      have hc : (100 * c0 + 4 * q + y0) / 4 = 25 * c0 + q := by omega
      have hd2 : (100 * c0 + 4 * q + y0) / 100 = c0 := by omega
      rw [hc, hd2]
      refine ⟨by omega, by omega, by omega, ?_⟩
      intro hdoy
      omega

theorem month_split (doy : Int) (h0 : 0 ≤ doy) (h1 : doy ≤ 365) :
    doyFromMonthDay (monthFromDoy doy) (dayFromDoy doy) = doy ∧
    1 ≤ monthFromDoy doy ∧ monthFromDoy doy ≤ 12 ∧
    1 ≤ dayFromDoy doy ∧ dayFromDoy doy ≤ 31 ∧
    (monthFromDoy doy = 4 ∨ monthFromDoy doy = 6 ∨ monthFromDoy doy = 9 ∨
      monthFromDoy doy = 11 → dayFromDoy doy ≤ 30) ∧
    (monthFromDoy doy = 2 → dayFromDoy doy ≤ 29 ∧ (dayFromDoy doy = 29 → doy = 365)) ∧
    (monthFromDoy doy ≤ 2 ↔ 306 ≤ doy) := by
  unfold monthFromDoy dayFromDoy doyFromMonthDay
  simp only
  set mp := (5 * doy + 2) / 153 with hmp
  have h2 : 0 ≤ mp ∧ mp ≤ 11 ∧ 153 * mp ≤ 5 * doy + 2 ∧ 5 * doy + 2 < 153 * mp + 153 := by omega
  clear_value mp
  clear hmp
  by_cases hm : mp < 10
  · rw [if_pos hm, if_pos (show (2 : Int) < mp + 3 by omega),
      show mp + 3 - 3 = mp from by omega]
    omega
  · rw [if_neg hm, if_neg (show ¬ (2 : Int) < mp - 9 by omega),
      show mp - 9 + 9 = mp from by omega]
    omega

theorem daysFromCivil_civilFromDays (z : Int) :
    daysFromCivil (civilFromDays z).1 (civilFromDays z).2.1 (civilFromDays z).2.2 = z := by
  have hs := days_split z
  have hm := month_split (doyFromDays z) hs.1 hs.2.1
  unfold civilFromDays daysFromCivil
  dsimp only
  by_cases hle : monthFromDoy (doyFromDays z) ≤ 2
  · simp only [if_pos hle]
    rw [show marchYearFromDays z + 1 - 1 = marchYearFromDays z from by omega, hm.1]
    exact hs.2.2.1
  · simp only [if_neg hle]
    rw [hm.1]
    exact hs.2.2.1

theorem isLeapI_iff (y : Int) :
    isLeapI y = true ↔ ((y % 4 = 0 ∧ y % 100 ≠ 0) ∨ y % 400 = 0) := by
  simp [isLeapI]

theorem civil_valid (z : Int) :
    1 ≤ (civilFromDays z).2.1 ∧ (civilFromDays z).2.1 ≤ 12 ∧
    1 ≤ (civilFromDays z).2.2 ∧
    (civilFromDays z).2.2 ≤ daysInMonthI (civilFromDays z).1 (civilFromDays z).2.1 := by
  have hs := days_split z
  have hm := month_split (doyFromDays z) hs.1 hs.2.1
  unfold civilFromDays
  dsimp only
  refine ⟨hm.2.1, hm.2.2.1, hm.2.2.2.1, ?_⟩
  unfold daysInMonthI
  by_cases h2 : monthFromDoy (doyFromDays z) = 2
  · rw [if_pos h2]
    have hle : monthFromDoy (doyFromDays z) ≤ 2 := by omega
    simp only [if_pos hle]
    by_cases hleap : isLeapI (marchYearFromDays z + 1) = true
    · rw [if_pos hleap]
      exact (hm.2.2.2.2.2.2.1 h2).1
    · rw [if_neg hleap]
      -- if the day were 29, doy = 365 forces a leap year, contradiction
      rcases hm.2.2.2.2.2.2.1 h2 with ⟨h29, h365⟩
      by_contra hgt
      have hd29 : dayFromDoy (doyFromDays z) = 29 := by omega
      have hdoy365 := h365 hd29
      have hl := (hs.2.2.2 hdoy365)
      rw [isLeapI_iff] at hleap
      omega
  · rw [if_neg h2]
    by_cases h46 : monthFromDoy (doyFromDays z) = 4 ∨ monthFromDoy (doyFromDays z) = 6 ∨
        monthFromDoy (doyFromDays z) = 9 ∨ monthFromDoy (doyFromDays z) = 11
    · rw [if_pos h46]
      have h30 := hm.2.2.2.2.2.1 h46
      omega
    · rw [if_neg h46]
      omega

theorem civil_year_bounds (z : Int) (hlo : -719528 ≤ z) (hhi : z ≤ 2932896) :
    0 ≤ (civilFromDays z).1 ∧ (civilFromDays z).1 ≤ 9999 := by
  have hs := days_split z
  have hm := month_split (doyFromDays z) hs.1 hs.2.1
  have hrec := hs.2.2.1
  unfold daysFromYearDoy at hrec
  simp only at hrec
  unfold civilFromDays
  dsimp only
  set my := marchYearFromDays z with hmy
  set doy := doyFromDays z with hdoy
  clear_value my doy
  set era := my / 400 with hera
  set yoe := my % 400 with hyoe
  have h1 : my = 400 * era + yoe ∧ 0 ≤ yoe ∧ yoe ≤ 399 := by omega
  clear_value era yoe
  clear hera hyoe
  set w := 365 * yoe + yoe / 4 - yoe / 100 with hw
  have hwf : 365 * yoe ≤ w ∧ w ≤ 365 * yoe + 99 ∧ w ≤ 145731 ∧ 0 ≤ w ∧
      (yoe = 399 → w = 145731) := by omega
  have hrec2 : 146097 * era + w + doy - 719468 = z := by omega
  clear_value w
  clear hw hrec
  have hiff := hm.2.2.2.2.2.2.2
  split <;> omega


theorem digitVal_digitChar (n : Int) (h0 : 0 ≤ n) (h9 : n ≤ 9) :
    digitVal (digitChar n) = some n := by
  interval_cases n <;> decide

theorem digitVal_digitChar_mod (n : Int) :
    digitVal (digitChar (n % 10)) = some (n % 10) :=
  digitVal_digitChar _ (by omega) (by omega)

theorem digitChar_ne_dot (n : Int) : (digitChar n != '.') = true := by
  unfold digitChar
  split <;> rfl

theorem parse2_pad2 (n : Int) (h0 : 0 ≤ n) (h : n ≤ 99) :
    parse2 (digitChar (n / 10 % 10)) (digitChar (n % 10)) = some n := by
  unfold parse2
  rw [digitVal_digitChar_mod, digitVal_digitChar_mod]
  simp only [Option.some.injEq]
  omega

theorem parse4_pad4 (n : Int) (h0 : 0 ≤ n) (h : n ≤ 9999) :
    parse4 (digitChar (n / 1000 % 10)) (digitChar (n / 100 % 10))
      (digitChar (n / 10 % 10)) (digitChar (n % 10)) = some n := by
  unfold parse4
  rw [digitVal_digitChar_mod, digitVal_digitChar_mod, digitVal_digitChar_mod,
    digitVal_digitChar_mod]
  simp only [Option.some.injEq]
  omega

theorem daysInMonthI_le (y m : Int) : daysInMonthI y m ≤ 31 := by
  unfold daysInMonthI
  split_ifs <;> omega

theorem parseTimeTail_digits (hh mi ss : Int)
    (hh0 : 0 ≤ hh) (hh1 : hh ≤ 99) (mi0 : 0 ≤ mi) (mi1 : mi ≤ 99)
    (ss0 : 0 ≤ ss) (ss1 : ss ≤ 99) :
    parseTimeTail [digitChar (hh / 10 % 10), digitChar (hh % 10), ':',
      digitChar (mi / 10 % 10), digitChar (mi % 10), ':',
      digitChar (ss / 10 % 10), digitChar (ss % 10), 'Z'] =
      some (hh, mi, ss, 0, true) := by
  have h1 := parse2_pad2 hh hh0 hh1
  have h2 := parse2_pad2 mi mi0 mi1
  have h3 := parse2_pad2 ss ss0 ss1
  simp only [parseTimeTail, h1, h2, h3]

theorem parse_isoSecChars (tz tsec : Int)
    (hlo : -62167219200 ≤ tsec) (hhi : tsec < 253402300800) :
    parseJsDateChars tz (isoSecChars tsec ++ ['Z']) = some (1000 * tsec) := by
  have hdays : -719528 ≤ tsec / 86400 ∧ tsec / 86400 ≤ 2932896 := by omega
  have hyb := civil_year_bounds (tsec / 86400) hdays.1 hdays.2
  have hv := civil_valid (tsec / 86400)
  have hrt := daysFromCivil_civilFromDays (tsec / 86400)
  have hsod : 0 ≤ tsec % 86400 ∧ tsec % 86400 ≤ 86399 := by omega
  unfold isoSecChars
  dsimp only
  unfold yearChars
  rw [if_pos ⟨hyb.1, hyb.2⟩]
  unfold pad4 pad2
  simp only [List.cons_append, List.nil_append]
  rw [parseJsDateChars]
  rw [if_pos (Or.inr rfl)]
  rw [parse4_pad4 _ hyb.1 hyb.2]
  rw [parse2_pad2 _ (by omega : (0:Int) ≤ (civilFromDays (tsec / 86400)).2.1)
    (by omega : (civilFromDays (tsec / 86400)).2.1 ≤ 99)]
  have hdim := daysInMonthI_le (civilFromDays (tsec / 86400)).1 (civilFromDays (tsec / 86400)).2.1
  rw [parse2_pad2 _ (by omega : (0:Int) ≤ (civilFromDays (tsec / 86400)).2.2)
    (by omega : (civilFromDays (tsec / 86400)).2.2 ≤ 99)]
  rw [parseTimeTail_digits _ _ _ (by omega) (by omega) (by omega) (by omega) (by omega) (by omega)]
  dsimp only
  rw [if_pos ⟨hv.1, hv.2.1, hv.2.2.1, hv.2.2.2, by omega, by omega, by omega⟩]
  unfold epochMillisOfCivil
  rw [hrt]
  simp only [Option.some.injEq]
  rw [if_pos trivial]
  omega

theorem parseJsDate_isoSecString (tz tsec : Int)
    (hlo : -62167219200 ≤ tsec) (hhi : tsec < 253402300800) :
    parseJsDate tz (isoSecString tsec) = some (1000 * tsec) := by
  unfold parseJsDate isoSecString
  show parseJsDateChars tz (isoSecChars tsec ++ ['Z']) = some (1000 * tsec)
  exact parse_isoSecChars tz tsec hlo hhi

theorem all_ne_dot_pad2 (n : Int) : (pad2 n).all (fun c => c != '.') = true := by
  simp [pad2, digitChar_ne_dot]

theorem all_ne_dot_pad4 (n : Int) : (pad4 n).all (fun c => c != '.') = true := by
  simp [pad4, digitChar_ne_dot]

theorem all_ne_dot_pad6 (n : Int) : (pad6 n).all (fun c => c != '.') = true := by
  simp [pad6, digitChar_ne_dot]

theorem all_ne_dot_yearChars (y : Int) : (yearChars y).all (fun c => c != '.') = true := by
  unfold yearChars
  split_ifs <;> simp [all_ne_dot_pad4, all_ne_dot_pad6]

theorem all_ne_dot_isoSecChars (tsec : Int) :
    (isoSecChars tsec).all (fun c => c != '.') = true := by
  unfold isoSecChars
  dsimp only
  simp [List.all_append, all_ne_dot_pad2, all_ne_dot_yearChars]

theorem takeWhile_ne_dot_append (a b : List Char) (h : a.all (fun c => c != '.') = true) :
    (a ++ '.' :: b).takeWhile (fun c => c != '.') = a := by
  induction a with
  | nil => simp [List.takeWhile]
  | cons x xs ih =>
    simp only [List.all_cons, Bool.and_eq_true] at h
    simp [List.takeWhile_cons, h.1, ih h.2]

theorem jsSplitDotHead_iso (t : Int) :
    jsSplitDotHead (String.mk (isoSecChars (t / 1000) ++ '.' :: pad3 (t % 1000) ++ ['Z'])) ++
      "Z" = isoSecString (t / 1000) := by
  unfold jsSplitDotHead isoSecString
  show String.mk ((isoSecChars (t / 1000) ++ '.' :: pad3 (t % 1000) ++
      ['Z']).takeWhile (fun c => c != '.')) ++ "Z" =
    String.mk (isoSecChars (t / 1000) ++ ['Z'])
  rw [show isoSecChars (t / 1000) ++ '.' :: pad3 (t % 1000) ++ ['Z'] =
      isoSecChars (t / 1000) ++ '.' :: (pad3 (t % 1000) ++ ['Z']) from by
    simp [List.append_assoc]]
  rw [takeWhile_ne_dot_append _ _ (all_ne_dot_isoSecChars (t / 1000))]
  rfl

theorem formatToISO8601_parse_ok (parse : String → Option Int) (s : String) (t : Int)
    (hp : parse s = some t) (hs : ¬ s = "")
    (hlo : -8640000000000000 ≤ t) (hhi : t ≤ 8640000000000000) :
    formatToISO8601 parse (some s) = .ok (some (isoSecString (t / 1000))) := by
  unfold formatToISO8601
  dsimp only
  rw [if_neg hs, hp]
  unfold toISOStringE
  dsimp only
  rw [if_neg (by omega)]
  dsimp only
  rw [jsSplitDotHead_iso]

theorem isBasicIsoZ_isoSecString (tsec : Int)
    (hlo : -62167219200 ≤ tsec) (hhi : tsec < 253402300800) :
    isBasicIsoZ (isoSecString tsec) = true := by
  have hyb := civil_year_bounds (tsec / 86400) (by omega) (by omega)
  unfold isBasicIsoZ isoSecString
  show isBasicIsoZChars (isoSecChars tsec ++ ['Z']) = true
  unfold isoSecChars
  dsimp only
  unfold yearChars
  rw [if_pos ⟨hyb.1, hyb.2⟩]
  unfold pad4 pad2
  simp only [List.cons_append, List.nil_append]
  simp [isBasicIsoZChars, digitVal_digitChar_mod]

/-- C6: for every date string the embedded `Date` parser accepts, with the
resulting instant in the four-digit-year range, `formatToISO8601` returns
exactly the second-precision UTC rendering of the floor of the parsed
instant (sub-second part discarded, not rounded) with a literal `Z`
appended, and that output matches the pattern `YYYY-MM-DDTHH:mm:ssZ`. -/
theorem valid_date_iso_format (tz : Int) (s : String) (t : Int)
    (hp : parseJsDate tz s = some t)
    (hlo : -62167219200000 ≤ t) (hhi : t < 253402300800000) :
    formatToISO8601 (parseJsDate tz) (some s) = .ok (some (isoSecString (t / 1000))) ∧
    isBasicIsoZ (isoSecString (t / 1000)) = true := by
  have hs : ¬ s = "" := by
    intro h
    rw [h] at hp
    have h2 : (none : Option Int) = some t := hp
    cases h2
  exact ⟨formatToISO8601_parse_ok _ s t hp hs (by omega) (by omega),
    isBasicIsoZ_isoSecString (t / 1000) (by omega) (by omega)⟩

theorem valid_date_iso_format_witness :
    formatToISO8601 (parseJsDate 0) (some "2024-01-15 10:30:00") =
      .ok (some (isoSecString (1705314600000 / 1000))) ∧
    isBasicIsoZ (isoSecString (1705314600000 / 1000)) = true :=
  valid_date_iso_format 0 "2024-01-15 10:30:00" 1705314600000 rfl
    (by norm_num) (by norm_num)

/-- C7: normalisation is idempotent under re-parsing: for every date string
the embedded `Date` parser accepts (instant in the four-digit-year range),
feeding the output of `formatToISO8601` back through `formatToISO8601`
reproduces it unchanged. -/
theorem normalisation_idempotent (tz : Int) (s : String) (t : Int)
    (hp : parseJsDate tz s = some t)
    (hlo : -62167219200000 ≤ t) (hhi : t < 253402300800000) :
    (formatToISO8601 (parseJsDate tz) (some s)).bind (formatToISO8601 (parseJsDate tz)) =
      formatToISO8601 (parseJsDate tz) (some s) := by
  have hs : ¬ s = "" := by
    intro h
    rw [h] at hp
    have h2 : (none : Option Int) = some t := hp
    cases h2
  have h1 := formatToISO8601_parse_ok (parseJsDate tz) s t hp hs (by omega) (by omega)
  rw [h1]
  show formatToISO8601 (parseJsDate tz) (some (isoSecString (t / 1000))) =
    .ok (some (isoSecString (t / 1000)))
  have hp2 : parseJsDate tz (isoSecString (t / 1000)) = some (1000 * (t / 1000)) :=
    parseJsDate_isoSecString tz (t / 1000) (by omega) (by omega)
  have hs2 : ¬ isoSecString (t / 1000) = "" := by
    intro hcon
    have h3 : isoSecChars (t / 1000) ++ ['Z'] = ([] : List Char) :=
      congrArg String.toList hcon
    simp at h3
  have h2 := formatToISO8601_parse_ok (parseJsDate tz) _ _ hp2 hs2 (by omega) (by omega)
  rw [show 1000 * (t / 1000) / 1000 = t / 1000 from by omega] at h2
  exact h2

theorem normalisation_idempotent_witness :
    (formatToISO8601 (parseJsDate 0) (some "2024-01-15 10:30:00")).bind
        (formatToISO8601 (parseJsDate 0)) =
      formatToISO8601 (parseJsDate 0) (some "2024-01-15 10:30:00") :=
  normalisation_idempotent 0 "2024-01-15 10:30:00" 1705314600000 rfl
    (by norm_num) (by norm_num)
